import Mathlib

/-!
# Plant-Net server: a shallow embedding of `src/index.js`

The server is an Express application over three MongoDB collections
(`users`, `plants`, `orders`).  This development embeds

* the documents the handlers read and write (`Value`, `Doc`),
* the driver and server operations the handlers call (`findOne`, `insertOne`,
  `updateOne` with `$inc`, `deleteOne`, and the six stages of the aggregation
  behind `GET /customer-orders/:email`),
* the `verifyToken` middleware, every route handler and the route table,

and proves the properties of the order / inventory layer.

Modelling conventions.

* A number is carried by its value, an integer (`Int`); fractional numbers
  are outside the model.  Arithmetic is that of the program: a JavaScript
  number is an IEEE-754 double, the driver sends it as a BSON int32 when it
  fits and as a double otherwise, and `$inc` adds in the BSON types, so a sum
  is rounded to the nearest double where the program rounds it
  (`roundDouble`).  Where the result depends on the BSON type of a stored
  number, which the model does not carry, the model gives no result.
* An `ObjectId` is carried as its 24 digit lower-case hexadecimal form.
* A rejected promise or a thrown exception inside an async handler is the
  outcome `Outcome.threw`; no response is produced by the handler then.
* `Date.now()`, the identifier the driver generates for an inserted document,
  `jwt.sign` and `jwt.verify` (closed over the server secret) are inputs,
  collected in `Env`.
* A response body is kept as the document handed to `res.send`; its JSON
  serialisation is not modelled.
-/

namespace PlantNet

/-! ## Documents -/

/-- BSON / JSON values. -/
inductive Value where
  | null : Value
  | bool (b : Bool) : Value
  | num (n : Int) : Value
  | str (s : String) : Value
  | oid (hex : String) : Value
  | arr (items : List Value) : Value
  | doc (fields : List (String × Value)) : Value

/-- A document: its fields in order. -/
abbrev Doc := List (String × Value)

mutual
/-- Decidable equality of values. -/
def Value.decEq : (a b : Value) → Decidable (a = b)
  | .null, .null => isTrue rfl
  | .bool a, .bool b =>
    if h : a = b then isTrue (by rw [h]) else isFalse (by intro e; injection e; contradiction)
  | .num a, .num b =>
    if h : a = b then isTrue (by rw [h]) else isFalse (by intro e; injection e; contradiction)
  | .str a, .str b =>
    if h : a = b then isTrue (by rw [h]) else isFalse (by intro e; injection e; contradiction)
  | .oid a, .oid b =>
    if h : a = b then isTrue (by rw [h]) else isFalse (by intro e; injection e; contradiction)
  | .arr a, .arr b =>
    match Value.decEqList a b with
    | isTrue h => isTrue (by rw [h])
    | isFalse h => isFalse (by intro e; injection e; contradiction)
  | .doc a, .doc b =>
    match Value.decEqFields a b with
    | isTrue h => isTrue (by rw [h])
    | isFalse h => isFalse (by intro e; injection e; contradiction)
  | .null, .bool _ | .null, .num _ | .null, .str _ | .null, .oid _ | .null, .arr _
  | .null, .doc _ => isFalse (by intro e; cases e)
  | .bool _, .null | .bool _, .num _ | .bool _, .str _ | .bool _, .oid _ | .bool _, .arr _
  | .bool _, .doc _ => isFalse (by intro e; cases e)
  | .num _, .null | .num _, .bool _ | .num _, .str _ | .num _, .oid _ | .num _, .arr _
  | .num _, .doc _ => isFalse (by intro e; cases e)
  | .str _, .null | .str _, .bool _ | .str _, .num _ | .str _, .oid _ | .str _, .arr _
  | .str _, .doc _ => isFalse (by intro e; cases e)
  | .oid _, .null | .oid _, .bool _ | .oid _, .num _ | .oid _, .str _ | .oid _, .arr _
  | .oid _, .doc _ => isFalse (by intro e; cases e)
  | .arr _, .null | .arr _, .bool _ | .arr _, .num _ | .arr _, .str _ | .arr _, .oid _
  | .arr _, .doc _ => isFalse (by intro e; cases e)
  | .doc _, .null | .doc _, .bool _ | .doc _, .num _ | .doc _, .str _ | .doc _, .oid _
  | .doc _, .arr _ => isFalse (by intro e; cases e)
/-- Decidable equality of arrays of values. -/
def Value.decEqList : (a b : List Value) → Decidable (a = b)
  | [], [] => isTrue rfl
  | [], _ :: _ => isFalse (by intro e; cases e)
  | _ :: _, [] => isFalse (by intro e; cases e)
  | x :: xs, y :: ys =>
    match Value.decEq x y, Value.decEqList xs ys with
    | isTrue h1, isTrue h2 => isTrue (by rw [h1, h2])
    | isFalse h1, _ => isFalse (by intro e; injection e; contradiction)
    | _, isFalse h2 => isFalse (by intro e; injection e; contradiction)
/-- Decidable equality of field lists. -/
def Value.decEqFields : (a b : List (String × Value)) → Decidable (a = b)
  | [], [] => isTrue rfl
  | [], _ :: _ => isFalse (by intro e; cases e)
  | _ :: _, [] => isFalse (by intro e; cases e)
  | (k, x) :: xs, (l, y) :: ys =>
    if hk : k = l then
      match Value.decEq x y, Value.decEqFields xs ys with
      | isTrue h1, isTrue h2 => isTrue (by rw [hk, h1, h2])
      | isFalse h1, _ => isFalse (by intro e; injection e with e1 e2; injection e1; contradiction)
      | _, isFalse h2 => isFalse (by intro e; injection e; contradiction)
    else isFalse (by intro e; injection e with e1 e2; injection e1; contradiction)
end

instance : DecidableEq Value := Value.decEq

deriving instance DecidableEq for Except

/-- The value of field `k` of a document (`d[k]` in JavaScript, the field `k`
of a stored document); `none` when the field is missing. -/
def getField : Doc → String → Option Value
  | [], _ => none
  | (k, v) :: rest, key => if k = key then some v else getField rest key

/-- Assignment to a field: an existing field keeps its position and takes the
new value, a new field is appended (object spread followed by a property, and
the effect of `$addFields` / `$inc` on one field). -/
def setField : Doc → String → Value → Doc
  | [], key, v => [(key, v)]
  | (k, w) :: rest, key, v =>
    if k = key then (k, v) :: rest else (k, w) :: setField rest key v

/-- Removal of a field (`$project: { k: 0 }`). -/
def eraseField (d : Doc) (key : String) : Doc :=
  d.filter (fun kv => !decide (kv.1 = key))

/-! ## ObjectId -/

/-- One hexadecimal digit, either case. -/
def isHexDigit (c : Char) : Bool :=
  c.isDigit || (decide ('a' ≤ c) && decide (c ≤ 'f')) || (decide ('A' ≤ c) && decide (c ≤ 'F'))

/-- Lower-casing of a string, character by character. -/
def lowerStr (s : String) : String :=
  String.mk (s.data.map Char.toLower)

/-- The ObjectId a string denotes: the string must be 24 hexadecimal digits. -/
def parseObjectId (s : String) : Option Value :=
  if s.data.length = 24 ∧ s.data.all isHexDigit = true then some (.oid (lowerStr s)) else none

/-- The constructor call `new ObjectId(id)` on a route parameter: it throws on a
string that is not 24 hexadecimal digits. -/
def newObjectId (id : String) : Except String Value :=
  match parseObjectId id with
  | some v => .ok v
  | none => .error "BSONError: input must be a 24 character hex string"

/-- The aggregation operator `$toObjectId` applied to the value of a field
path: `null` and a missing field give `null`, an ObjectId is kept, a string is
parsed and the conversion fails when it is not 24 hexadecimal digits, any other
type fails. -/
def toObjectId : Option Value → Except String Value
  | none => .ok .null
  | some .null => .ok .null
  | some (.oid h) => .ok (.oid h)
  | some (.str s) =>
    match parseObjectId s with
    | some v => .ok v
    | none => .error "Failed to parse objectId in $convert"
  | some _ => .error "Unsupported conversion to objectId in $convert"

/-! ## Collections -/

/-- Equality match of a query value against a stored field: the field equals
the value, or is an array holding it; a missing field matches only `null`. -/
def eqMatch (field : Option Value) (q : Value) : Bool :=
  match field with
  | none => decide (q = .null)
  | some (.arr xs) => decide (q = .arr xs) || xs.contains q
  | some v => decide (v = q)

/-- The call `collection.findOne({ [key]: q })`: the first matching document. -/
def findOne (c : List Doc) (key : String) (q : Value) : Option Doc :=
  c.find? (fun d => eqMatch (getField d key) q)

/-- Removal of the first document satisfying `p`. -/
def deleteFirst (p : Doc → Bool) : List Doc → List Doc
  | [] => []
  | d :: ds => if p d then ds else d :: deleteFirst p ds

/-- Replacement of the first document satisfying `p` by `f` of it. -/
def updateFirst (p : Doc → Bool) (f : Doc → Doc) : List Doc → List Doc
  | [] => []
  | d :: ds => if p d then f d :: ds else d :: updateFirst p f ds

/-- The acknowledgment of `insertOne`. -/
def insertAck (id : Value) : Value :=
  .doc [("acknowledged", .bool true), ("insertedId", id)]

/-- The `_id` of the document `insertOne` stores: the driver assigns the
generated identifier when `_id` is missing or `null`. -/
def assignedId (d : Doc) (generated : String) : Value :=
  match getField d "_id" with
  | none => .oid generated
  | some .null => .oid generated
  | some v => v

/-- The document `insertOne` stores; the server keeps `_id` as the first field. -/
def withId (d : Doc) (generated : String) : Doc :=
  ("_id", assignedId d generated) :: eraseField d "_id"

/-- Whether a value is an array. -/
def isArr : Value → Bool
  | .arr _ => true
  | _ => false

/-- The call `collection.insertOne(d)`: the stored document goes to the end of
the collection; an array as `_id` is rejected, an `_id` already present in the
collection is a duplicate key error, and nothing is stored in either case. -/
def insertOne (c : List Doc) (d : Doc) (generated : String) : Except String (Value × List Doc) :=
  if isArr (assignedId d generated) then
    .error "The _id field cannot be an array"
  else if c.any (fun e => decide (getField e "_id" = some (assignedId d generated))) then
    .error "E11000 duplicate key error"
  else
    .ok (insertAck (assignedId d generated), c ++ [withId d generated])

/-- Whether a document has an `_id` that is not an array. -/
def hasId (d : Doc) : Bool :=
  match getField d "_id" with
  | some v => !isArr v
  | none => false

/-- What the server maintains of every collection: each document has an `_id`,
which is not an array, and no two documents share one. -/
def WellFormed (c : List Doc) : Prop :=
  (∀ d ∈ c, hasId d = true) ∧ c.Pairwise (fun a b => getField a "_id" ≠ getField b "_id")

instance (c : List Doc) : Decidable (WellFormed c) :=
  inferInstanceAs (Decidable ((∀ d ∈ c, hasId d = true) ∧
    c.Pairwise (fun a b => getField a "_id" ≠ getField b "_id")))

/-! ### Numbers -/

/-- Whether an integer is a safe integer of JavaScript: its absolute value is
below two to the 53, so that it and its neighbours are doubles. -/
def isSafeInteger (n : Int) : Bool :=
  decide (n.natAbs < 2 ^ 53)

/-- Whether an integer fits a BSON int32, the type the driver gives to a
JavaScript number holding such an integer. -/
def isInt32 (n : Int) : Bool :=
  decide (-2147483648 ≤ n) && decide (n ≤ 2147483647)

/-- The distance between neighbouring doubles at a magnitude of at least two to
the 53: the power of two by which the magnitude exceeds 53 bits. -/
def ulpOf : Nat → Nat → Nat
  | 0, _ => 1
  | fuel + 1, m => if m < 2 ^ 53 then 1 else 2 * ulpOf fuel (m / 2)

/-- Two to the 1024, the least magnitude beyond every finite double. -/
def doubleLimit : Nat :=
  2 ^ 256 * 2 ^ 256 * 2 ^ 256 * 2 ^ 256

/-- The double nearest to an integer, ties going to the even significand
(IEEE-754 round to nearest even, 53 bit significand); `none` where the result
is an infinity. -/
def roundDouble (x : Int) : Option Int :=
  if x.natAbs < 2 ^ 53 then some x
  else
    let ulp := ulpOf 1024 x.natAbs
    let quo := x.natAbs / ulp
    let rest := x.natAbs % ulp
    let up := decide (ulp < 2 * rest) || (decide (ulp = 2 * rest) && decide (quo % 2 = 1))
    let m := if up then (quo + 1) * ulp else quo * ulp
    if doubleLimit ≤ m then none
    else some (if x < 0 then -(m : Int) else (m : Int))

/-- Whether an integer is the value of a double, hence of a JavaScript number. -/
def isDouble (x : Int) : Bool :=
  decide (roundDouble x = some x)

/-- The sum `$inc` stores for a stored number of value `q` and an increment
`delta` sent by the driver.  An increment outside int32 is a BSON double: the
stored number is converted to double and the double sum is stored.  An
increment inside int32 is a BSON int32: the sum is exact in every BSON type
when it is a safe integer; otherwise it depends on the type of the stored
number and the model gives `none`, as it does for an infinity. -/
def incSum (q delta : Int) : Option Int :=
  if isInt32 delta then
    if isSafeInteger (q + delta) then some (q + delta) else none
  else if isDouble delta then
    match roundDouble q with
    | none => none
    | some qd => roundDouble (qd + delta)
  else none

/-- The effect of `$inc: { [key]: delta }` on one document: a number is
incremented (`incSum`), a missing field is set to the increment, any other
value is an error.  The result is `none` where `incSum` is. -/
def incField (d : Doc) (key : String) (delta : Int) : Option (Except String Doc) :=
  match getField d key with
  | none => some (.ok (setField d key (.num delta)))
  | some (.num q) =>
    match incSum q delta with
    | some r => some (.ok (setField d key (.num r)))
    | none => none
  | some _ => some (.error "Cannot apply $inc to a value of non-numeric type")

/-- The acknowledgment of `updateOne`. -/
def updateAck (matched modified : Int) : Value :=
  .doc [("acknowledged", .bool true), ("modifiedCount", .num modified),
        ("upsertedId", .null), ("upsertedCount", .num 0), ("matchedCount", .num matched)]

/-- The call `collection.updateOne({ [key]: q }, { $inc: { [field]: delta } })`.
The count of modified documents compares values.  The result is `none` where
`incField` is. -/
def updateOneInc (c : List Doc) (key : String) (q : Value) (field : String) (delta : Int) :
    Option (Except String (Value × List Doc)) :=
  match findOne c key q with
  | none => some (.ok (updateAck 0 0, c))
  | some d =>
    match incField d field delta with
    | none => none
    | some (.error e) => some (.error e)
    | some (.ok d2) =>
      some (.ok (updateAck 1 (if d2 = d then 0 else 1),
           updateFirst (fun x => eqMatch (getField x key) q) (fun _ => d2) c))

/-- The acknowledgment of `deleteOne`. -/
def deleteAck (n : Int) : Value :=
  .doc [("acknowledged", .bool true), ("deletedCount", .num n)]

/-- The call `collection.deleteOne({ [key]: q })`. -/
def deleteOne (c : List Doc) (key : String) (q : Value) : Value × List Doc :=
  match findOne c key q with
  | none => (deleteAck 0, c)
  | some _ => (deleteAck 1, deleteFirst (fun x => eqMatch (getField x key) q) c)

/-! ## The aggregation behind `GET /customer-orders/:email` -/

/-- The stage `$match: { 'a.b...': q }` on one document: the dotted path is
followed through embedded documents and through arrays of embedded documents,
and the value found is matched by equality. -/
def pathMatch : List String → Doc → Value → Bool
  | [], _, _ => false
  | [k], d, q => eqMatch (getField d k) q
  | k :: k2 :: rest, d, q =>
    match getField d k with
    | some (.doc sub) => pathMatch (k2 :: rest) sub q
    | some (.arr xs) =>
      xs.any (fun x =>
        match x with
        | .doc sub => pathMatch (k2 :: rest) sub q
        | _ => false)
    | _ => eqMatch none q

/-- Stage 1, `$match: { 'customer.email': email }`. -/
def matchStage (email : String) (orders : List Doc) : List Doc :=
  orders.filter (fun o => pathMatch ["customer", "email"] o (.str email))

/-- Stage 2 on one document, `$addFields: { plantId: { $toObjectId: '$plantId' } }`. -/
def addPlantId (o : Doc) : Except String Doc :=
  match toObjectId (getField o "plantId") with
  | .ok v => .ok (setField o "plantId" v)
  | .error e => .error e

/-- Stage 2 on the stream of documents: the first failing conversion fails the
whole aggregation. -/
def addPlantIdStage : List Doc → Except String (List Doc)
  | [] => .ok []
  | o :: rest =>
    match addPlantId o with
    | .error e => .error e
    | .ok o2 =>
      match addPlantIdStage rest with
      | .error e => .error e
      | .ok rest2 => .ok (o2 :: rest2)

/-- The plants a document joins with: those whose `_id` matches its `plantId`. -/
def lookupMatches (plants : List Doc) (d : Doc) : List Doc :=
  plants.filter (fun p => eqMatch (getField p "_id") ((getField d "plantId").getD .null))

/-- Stage 3 on one document, `$lookup` from `plants` on `plantId` = `_id` as
`plants`: the field holds the array of the matching plants. -/
def lookupPlants (plants : List Doc) (d : Doc) : Doc :=
  setField d "plants" (.arr ((lookupMatches plants d).map Value.doc))

/-- Stage 4 on one document, `$unwind: '$plants'`: one document per element of
the array, none for an empty array or a missing or `null` field. -/
def unwindPlants (d : Doc) : List Doc :=
  match getField d "plants" with
  | some (.arr xs) => xs.map (fun x => setField d "plants" x)
  | none => []
  | some .null => []
  | some _ => [d]

/-- The value of the expression `'$a.b'` on a document; `none` is the missing
value. -/
def evalPath2 (d : Doc) (a b : String) : Option Value :=
  match getField d a with
  | some (.doc sub) => getField sub b
  | some (.arr xs) =>
    some (.arr (xs.filterMap (fun x =>
      match x with
      | .doc sub => getField sub b
      | _ => none)))
  | _ => none

/-- The stage `$addFields` for one field: the field takes the value, and a
missing value leaves the document without the field. -/
def addField (d : Doc) (key : String) (v : Option Value) : Doc :=
  match v with
  | some w => setField d key w
  | none => eraseField d key

/-- Stage 5 on one document, `$addFields` of `name`, `image` and `category`
from `$plants.name`, `$plants.image` and `$plants.category`; the three
expressions are evaluated on the incoming document. -/
def addPlantFields (d : Doc) : Doc :=
  addField (addField (addField d "name" (evalPath2 d "plants" "name"))
    "image" (evalPath2 d "plants" "image")) "category" (evalPath2 d "plants" "category")

/-- Stage 6 on one document, `$project: { plants: 0 }`. -/
def projectOutPlants (d : Doc) : Doc :=
  eraseField d "plants"

/-- The whole pipeline of `GET /customer-orders/:email`, followed by `toArray`. -/
def customerOrdersAggregate (orders plants : List Doc) (email : String) :
    Except String (List Doc) :=
  match addPlantIdStage (matchStage email orders) with
  | .error e => .error e
  | .ok converted =>
    .ok ((((converted.map (lookupPlants plants)).flatMap unwindPlants).map addPlantFields).map
      projectOutPlants)

/-! ## Requests, responses and state -/

/-- The three collections of the database `plantNet`. -/
structure DB where
  users : List Doc
  plants : List Doc
  orders : List Doc
deriving DecidableEq

/-- HTTP methods used by the routes. -/
inductive Method where
  | GET | POST | PATCH | DELETE
deriving DecidableEq

/-- What a response does to the `token` cookie. -/
inductive CookieOp where
  | keep
  | setToken (token : String) (secure : Bool) (sameSite : String)
  | clearToken (secure : Bool) (sameSite : String)
deriving DecidableEq

/-- What a handler does with a request: it sends a response, or it throws
(a rejected promise in an async handler) and sends nothing. -/
inductive Outcome where
  | send (status : Nat) (body : Value) (cookie : CookieOp)
  | threw (message : String)
deriving DecidableEq

/-- The outcome of a request and the database after it. -/
structure Result where
  outcome : Outcome
  db : DB
deriving DecidableEq

/-- A request: method, path segments, the `token` cookie as `cookie-parser`
leaves it, the JSON body, and the claim `verifyToken` attaches. -/
structure Request where
  method : Method
  path : List String
  token : Option String
  body : Doc
  user : Option Value
deriving DecidableEq

/-- What the handlers take from outside the program. -/
structure Env where
  /-- The value of `Date.now()`. -/
  now : Int
  /-- The hexadecimal form of the identifier the driver generates for an insert. -/
  generatedId : String
  /-- The call `jwt.verify(token, secret)`: the decoded claim, or `none` on an error. -/
  jwtVerify : String → Option Value
  /-- The call `jwt.sign(claim, secret, 365 days)`. -/
  jwtSign : Doc → String
  /-- Whether `NODE_ENV` is `production`. -/
  production : Bool

/-- A successful response `res.send(body)`. -/
def ok200 (body : Value) : Outcome :=
  .send 200 body .keep

/-- The response `res.status(401).send({ message: 'unauthorized access' })`. -/
def unauthorized : Outcome :=
  .send 401 (.doc [("message", .str "unauthorized access")]) .keep

/-- The response of the delete handler on a delivered order. -/
def conflict : Outcome :=
  .send 409 (.doc [("message", .str "This order is already delivered")]) .keep

/-- The response of Express when no route matches. -/
def notFound : Outcome :=
  .send 404 .null .keep

/-! ## Middleware and handlers -/

/-- The middleware `verifyToken`: a missing or empty `token` cookie and a token
`jwt.verify` rejects are answered with 401 and `next` is not called; otherwise
the decoded claim is stored in `req.user` and `next()` runs the handler (whose
result is `none` only outside the model, see `managePlantQuantity`). -/
def verifyToken (env : Env) (req : Request) (next : Request → DB → Option Result) (db : DB) :
    Option Result :=
  match req.token with
  | none => some ⟨unauthorized, db⟩
  | some t =>
    if t = "" then some ⟨unauthorized, db⟩
    else
      match env.jwtVerify t with
      | none => some ⟨unauthorized, db⟩
      | some decoded => next { req with user := some decoded } db

/-- The handler of `POST /users/:email`. -/
def saveUser (env : Env) (email : String) (req : Request) (db : DB) : Result :=
  match findOne db.users "email" (.str email) with
  | some isExist => ⟨ok200 (.doc isExist), db⟩
  | none =>
    match insertOne db.users
        (setField (setField req.body "role" (.str "customer")) "timestamp" (.num env.now))
        env.generatedId with
    | .error e => ⟨.threw e, db⟩
    | .ok (result, users2) => ⟨ok200 result, { db with users := users2 }⟩

/-- The handler of `POST /jwt`. -/
def issueJwt (env : Env) (req : Request) (db : DB) : Result :=
  ⟨.send 200 (.doc [("success", .bool true)])
    (.setToken (env.jwtSign req.body) env.production
      (if env.production then "none" else "strict")), db⟩

/-- The handler of `GET /plants`. -/
def listPlants (db : DB) : Result :=
  ⟨ok200 (.arr ((db.plants.take 20).map Value.doc)), db⟩

/-- The handler of `GET /plant/:id`. -/
def getPlant (id : String) (db : DB) : Result :=
  match newObjectId id with
  | .error e => ⟨.threw e, db⟩
  | .ok q =>
    match findOne db.plants "_id" q with
    | some plant => ⟨ok200 (.doc plant), db⟩
    | none => ⟨ok200 .null, db⟩

/-- The handler of `POST /plants`. -/
def savePlant (env : Env) (req : Request) (db : DB) : Result :=
  match insertOne db.plants req.body env.generatedId with
  | .error e => ⟨.threw e, db⟩
  | .ok (result, plants2) => ⟨ok200 result, { db with plants := plants2 }⟩

/-- The handler of `PATCH /palnt/quantity/:id`.  The increment is
`-quantityToUpdate`, the exact negation of a double.  The model covers a
`quantityToUpdate` that is a JavaScript number with an integer value, so the
value of a double; any other body is outside it (`none`), and so is an update
on which `updateOneInc` gives no result. -/
def managePlantQuantity (id : String) (req : Request) (db : DB) : Option Result :=
  match newObjectId id with
  | .error e => some ⟨.threw e, db⟩
  | .ok q =>
    match getField req.body "quantityToUpdate" with
    | some (.num quantityToUpdate) =>
      if isDouble quantityToUpdate then
        match updateOneInc db.plants "_id" q "quantity" (-quantityToUpdate) with
        | none => none
        | some (.error e) => some ⟨.threw e, db⟩
        | some (.ok (result, plants2)) => some ⟨ok200 result, { db with plants := plants2 }⟩
      else none
    | _ => none

/-- The handler of `GET /customer-orders/:email`. -/
def customerOrders (email : String) (db : DB) : Result :=
  match customerOrdersAggregate db.orders db.plants email with
  | .error e => ⟨.threw e, db⟩
  | .ok rows => ⟨ok200 (.arr (rows.map Value.doc)), db⟩

/-- The handler of `POST /order`. -/
def saveOrder (env : Env) (req : Request) (db : DB) : Result :=
  match insertOne db.orders req.body env.generatedId with
  | .error e => ⟨.threw e, db⟩
  | .ok (result, orders2) => ⟨ok200 result, { db with orders := orders2 }⟩

/-- The handler of `DELETE /order/:id`.  When `findOne` finds nothing, `order`
is `null` and reading `order.status` throws. -/
def deleteOrder (id : String) (db : DB) : Result :=
  match newObjectId id with
  | .error e => ⟨.threw e, db⟩
  | .ok q =>
    match findOne db.orders "_id" q with
    | none => ⟨.threw "TypeError: Cannot read properties of null (reading status)", db⟩
    | some order =>
      if getField order "status" = some (.str "delivered") then ⟨conflict, db⟩
      else
        let result := deleteOne db.orders "_id" q
        ⟨ok200 result.1, { db with orders := result.2 }⟩

/-- The handler of `GET /logout`. -/
def logout (env : Env) (db : DB) : Result :=
  ⟨.send 200 (.doc [("success", .bool true)])
    (.clearToken env.production (if env.production then "none" else "strict")), db⟩

/-- The handler of `GET /`. -/
def root (db : DB) : Result :=
  ⟨ok200 (.str "Hello from plantNet Server.."), db⟩

/-! ## Routes -/

/-- The handlers the application registers. -/
inductive Handler where
  | saveUser | issueJwt | listPlants | getPlant | savePlant | managePlantQuantity
  | customerOrders | saveOrder | deleteOrder | logout | root
deriving DecidableEq

/-- One segment of a route path: a literal or a named parameter. -/
inductive Seg where
  | lit (s : String)
  | param (name : String)
deriving DecidableEq

/-- One registration `app.METHOD(path, [verifyToken,] handler)`. -/
structure Route where
  method : Method
  pattern : List Seg
  auth : Bool
  handler : Handler
deriving DecidableEq

/-- The registrations of `src/index.js`, in order: those of `run()` and then
`GET /`. -/
def routes : List Route :=
  [ ⟨.POST, [.lit "users", .param "email"], false, .saveUser⟩,
    ⟨.POST, [.lit "jwt"], false, .issueJwt⟩,
    ⟨.GET, [.lit "plants"], false, .listPlants⟩,
    ⟨.GET, [.lit "plant", .param "id"], false, .getPlant⟩,
    ⟨.POST, [.lit "plants"], true, .savePlant⟩,
    ⟨.PATCH, [.lit "palnt", .lit "quantity", .param "id"], true, .managePlantQuantity⟩,
    ⟨.GET, [.lit "customer-orders", .param "email"], true, .customerOrders⟩,
    ⟨.POST, [.lit "order"], true, .saveOrder⟩,
    ⟨.DELETE, [.lit "order", .param "id"], true, .deleteOrder⟩,
    ⟨.GET, [.lit "logout"], false, .logout⟩,
    ⟨.GET, [], false, .root⟩ ]

/-- Matching of a path against a pattern, segment by segment; a literal is
compared without regard to case, a parameter takes any non-empty segment.  The
result is the list of the parameter values. -/
def matchPath : List Seg → List String → Option (List (String × String))
  | [], [] => some []
  | .lit s :: ps, x :: xs =>
    if lowerStr x = lowerStr s then matchPath ps xs else none
  | .param name :: ps, x :: xs =>
    if x = "" then none
    else
      match matchPath ps xs with
      | some params => some ((name, x) :: params)
      | none => none
  | _, _ => none

/-- The first registration matching a method and a path, with the parameters. -/
def findRoute : List Route → Method → List String → Option (Route × List (String × String))
  | [], _, _ => none
  | r :: rs, m, path =>
    if r.method = m then
      match matchPath r.pattern path with
      | some params => some (r, params)
      | none => findRoute rs m path
    else findRoute rs m path

/-- The value of a route parameter (`req.params.name`). -/
def paramOf (params : List (String × String)) (name : String) : String :=
  match params.find? (fun kv => decide (kv.1 = name)) with
  | some kv => kv.2
  | none => ""

/-- The body of each handler.  `none` only where `managePlantQuantity` is. -/
def runHandler (env : Env) (h : Handler) (params : List (String × String)) (req : Request)
    (db : DB) : Option Result :=
  match h with
  | .saveUser => some (saveUser env (paramOf params "email") req db)
  | .issueJwt => some (issueJwt env req db)
  | .listPlants => some (listPlants db)
  | .getPlant => some (getPlant (paramOf params "id") db)
  | .savePlant => some (savePlant env req db)
  | .managePlantQuantity => managePlantQuantity (paramOf params "id") req db
  | .customerOrders => some (customerOrders (paramOf params "email") db)
  | .saveOrder => some (saveOrder env req db)
  | .deleteOrder => some (deleteOrder (paramOf params "id") db)
  | .logout => some (logout env db)
  | .root => some (root db)

/-- The application on one request: the first matching registration decides;
a gated registration runs `verifyToken` before its handler; without a match
Express answers 404. -/
def dispatch (env : Env) (req : Request) (db : DB) : Option Result :=
  match findRoute routes req.method req.path with
  | none => some ⟨notFound, db⟩
  | some (r, params) =>
    if r.auth then verifyToken env req (runHandler env r.handler params) db
    else runHandler env r.handler params req db

/-! ## The join, row by row -/

/-- The plant reference of an order after coercion: what `$toObjectId` makes of
its `plantId` (`null` where the conversion fails, in which case the aggregation
fails as a whole). -/
def plantRef (o : Doc) : Value :=
  match toObjectId (getField o "plantId") with
  | .ok v => v
  | .error _ => .null

/-- The plant an order resolves to: the plant whose `_id` is the coerced
`plantId` of the order. -/
def resolvePlant (plants : List Doc) (o : Doc) : Option Doc :=
  plants.find? (fun p => decide (getField p "_id" = some (plantRef o)))

/-- The row emitted for an order joined with a plant. -/
def joinRow (o p : Doc) : Doc :=
  projectOutPlants (addPlantFields (setField (setField o "plantId" (plantRef o)) "plants" (.doc p)))

/-- Whether `$toObjectId` converts the `plantId` of an order. -/
def convertible (o : Doc) : Bool :=
  match toObjectId (getField o "plantId") with
  | .ok _ => true
  | .error _ => false

/-! ## Sample data -/

/-- An environment: a fixed clock and generated identifier, and a verifier that
accepts exactly the token `good`. -/
def sampleEnv : Env :=
  { now := 1700000000000
    generatedId := "64c000000000000000000001"
    jwtVerify := fun t => if t = "good" then some (.doc [("email", .str "a@x.com")]) else none
    jwtSign := fun _ => "good"
    production := false }

/-- A plant with ten items in stock. -/
def plantFern : Doc :=
  [("_id", .oid "64a000000000000000000001"), ("name", .str "Fern"), ("image", .str "fern.png"),
   ("category", .str "Indoor"), ("quantity", .num 10)]

/-- A delivered order for the fern. -/
def orderDelivered : Doc :=
  [("_id", .oid "64b000000000000000000001"), ("customer", .doc [("email", .str "a@x.com")]),
   ("plantId", .str "64a000000000000000000001"), ("quantity", .num 3),
   ("status", .str "delivered")]

/-- A pending order whose plant reference is well formed but names no plant. -/
def orderPending : Doc :=
  [("_id", .oid "64b000000000000000000002"), ("customer", .doc [("email", .str "a@x.com")]),
   ("plantId", .str "64a000000000000000000002"), ("quantity", .num 1),
   ("status", .str "pending")]

/-- An order whose plant reference is not the text of an ObjectId. -/
def orderBadRef : Doc :=
  [("_id", .oid "64b000000000000000000003"), ("customer", .doc [("email", .str "a@x.com")]),
   ("plantId", .str "P2"), ("status", .str "pending")]

/-- An order for the fern that has a `name` field of its own. -/
def orderNamed : Doc :=
  [("_id", .oid "64b000000000000000000004"), ("customer", .doc [("email", .str "a@x.com")]),
   ("plantId", .str "64a000000000000000000001"), ("name", .str "Gift for Sam"),
   ("status", .str "pending")]

/-- A database with one plant and two orders. -/
def sampleDb : DB :=
  { users := [], plants := [plantFern], orders := [orderDelivered, orderPending] }

/-- A stored user. -/
def userAda : Doc :=
  [("_id", .oid "64d000000000000000000001"), ("email", .str "a@x.com"), ("name", .str "Ada"),
   ("role", .str "customer"), ("timestamp", .num 1690000000000)]

/-- A profile carrying its email and a role other than `customer`. -/
def profileAda : Doc :=
  [("email", .str "a@x.com"), ("name", .str "Ada"), ("role", .str "admin")]

/-- A profile without an email field. -/
def profileNoEmail : Doc :=
  [("name", .str "Ada")]

/-- A later environment: another clock value and generated identifier. -/
def laterEnv : Env :=
  { sampleEnv with now := 1700000000500, generatedId := "64c000000000000000000002" }

/-- A registration request for `a@x.com` with a given profile. -/
def registerReq (profile : Doc) : Request :=
  { method := .POST, path := ["users", "a@x.com"], token := none, body := profile, user := none }

/-- The empty database. -/
def emptyDb : DB :=
  { users := [], plants := [], orders := [] }

/-- A quantity adjustment by thirteen, more than the fern has in stock. -/
def adjustReq : Request :=
  { method := .PATCH, path := ["palnt", "quantity", "64a000000000000000000001"],
    token := some "good", body := [("quantityToUpdate", .num 13), ("status", .str "pending")],
    user := none }

/-- The operations behind the session gate. -/
def gatedHandlers : List Handler :=
  [.savePlant, .managePlantQuantity, .customerOrders, .saveOrder, .deleteOrder]

/-- A request to delete the pending order, with a given `token` cookie. -/
def deleteReq (token : Option String) : Request :=
  { method := .DELETE, path := ["order", "64b000000000000000000002"], token := token,
    body := [], user := none }

/-- A plant with a single item in stock. -/
def plantLast : Doc :=
  [("_id", .oid "64a000000000000000000003"), ("name", .str "Bonsai"), ("quantity", .num 1)]

/-- A restock of the bonsai by two to the 53 items: `quantityToUpdate` is minus
two to the 53, the value of a double. -/
def restockReq : Request :=
  { method := .PATCH, path := ["palnt", "quantity", "64a000000000000000000003"],
    token := some "good", body := [("quantityToUpdate", .num (-9007199254740992))],
    user := none }

/-! ## Lemmas on documents and collections -/

theorem getField_setField_same (d : Doc) (k : String) (v : Value) :
    getField (setField d k v) k = some v := by
  induction d with
  | nil => simp [setField, getField]
  | cons kv rest ih =>
    obtain ⟨k2, w⟩ := kv
    by_cases h : k2 = k
    · simp [setField, getField, h]
    · simp [setField, getField, h, ih]

theorem getField_setField_ne (d : Doc) (k j : String) (v : Value) (h : k ≠ j) :
    getField (setField d k v) j = getField d j := by
  induction d with
  | nil => simp [setField, getField, h]
  | cons kv rest ih =>
    obtain ⟨k2, w⟩ := kv
    by_cases h2 : k2 = k
    · subst h2
      simp [setField, getField, h]
    · by_cases h3 : k2 = j
      · subst h3
        simp [setField, getField, h2]
      · simp [setField, getField, h2, h3, ih]

theorem getField_eraseField_same (d : Doc) (k : String) :
    getField (eraseField d k) k = none := by
  induction d with
  | nil => simp [eraseField, getField]
  | cons kv rest ih =>
    obtain ⟨k2, w⟩ := kv
    by_cases h : k2 = k
    · simpa [eraseField, List.filter, h] using ih
    · simpa [eraseField, List.filter, h, getField] using ih

theorem getField_eraseField_ne (d : Doc) (k j : String) (h : k ≠ j) :
    getField (eraseField d k) j = getField d j := by
  induction d with
  | nil => simp [eraseField, getField]
  | cons kv rest ih =>
    obtain ⟨k2, w⟩ := kv
    by_cases h2 : k2 = k
    · subst h2
      simpa [eraseField, List.filter, getField, h] using ih
    · by_cases h3 : k2 = j
      · subst h3
        simp [eraseField, List.filter, getField, h2]
      · simpa [eraseField, List.filter, getField, h2, h3] using ih

theorem getField_addField_ne (d : Doc) (k j : String) (v : Option Value) (h : k ≠ j) :
    getField (addField d k v) j = getField d j := by
  cases v with
  | none => exact getField_eraseField_ne d k j h
  | some w => exact getField_setField_ne d k j w h

theorem getField_addField_same (d : Doc) (k : String) (v : Option Value) :
    getField (addField d k v) k = v := by
  cases v with
  | none => exact getField_eraseField_same d k
  | some w => exact getField_setField_same d k w

/-- The first document found splits the collection around it. -/
theorem findOne_split (c : List Doc) (key : String) (q : Value) (x : Doc)
    (h : findOne c key q = some x) :
    ∃ pre post, c = pre ++ x :: post ∧ eqMatch (getField x key) q = true ∧
      ∀ y ∈ pre, eqMatch (getField y key) q = false := by
  induction c with
  | nil => simp [findOne] at h
  | cons d ds ih =>
    by_cases hd : eqMatch (getField d key) q = true
    · have hx : d = x := by simpa [findOne, List.find?, hd] using h
      subst hx
      exact ⟨[], ds, rfl, hd, by simp⟩
    · have hd2 : eqMatch (getField d key) q = false := by simpa using hd
      have h2 : findOne ds key q = some x := by simpa [findOne, List.find?, hd2] using h
      obtain ⟨pre, post, hc, hm, hpre⟩ := ih h2
      refine ⟨d :: pre, post, by simp [hc], hm, ?_⟩
      intro y hy
      rcases List.mem_cons.mp hy with rfl | hy2
      · exact hd2
      · exact hpre y hy2

theorem deleteFirst_split (p : Doc → Bool) (pre post : List Doc) (x : Doc)
    (hx : p x = true) (hpre : ∀ y ∈ pre, p y = false) :
    deleteFirst p (pre ++ x :: post) = pre ++ post := by
  induction pre with
  | nil => simp [deleteFirst, hx]
  | cons d ds ih =>
    have hd : p d = false := hpre d (by simp)
    have := ih (fun y hy => hpre y (by simp [hy]))
    simp [deleteFirst, hd, this]

theorem updateFirst_split (p : Doc → Bool) (f : Doc → Doc) (pre post : List Doc) (x : Doc)
    (hx : p x = true) (hpre : ∀ y ∈ pre, p y = false) :
    updateFirst p f (pre ++ x :: post) = pre ++ f x :: post := by
  induction pre with
  | nil => simp [updateFirst, hx]
  | cons d ds ih =>
    have hd : p d = false := hpre d (by simp)
    have := ih (fun y hy => hpre y (by simp [hy]))
    simp [updateFirst, hd, this]

theorem findOne_append_of_pre (pre post : List Doc) (key : String) (q : Value) (x : Doc)
    (hx : eqMatch (getField x key) q = true)
    (hpre : ∀ y ∈ pre, eqMatch (getField y key) q = false) :
    findOne (pre ++ x :: post) key q = some x := by
  induction pre with
  | nil => simp [findOne, List.find?, hx]
  | cons d ds ih =>
    have hd : eqMatch (getField d key) q = false := hpre d (by simp)
    have := ih (fun y hy => hpre y (by simp [hy]))
    simpa [findOne, List.find?, hd] using this

theorem setField_setField_same (d : Doc) (k : String) (v w : Value) :
    setField (setField d k v) k w = setField d k w := by
  induction d with
  | nil => simp [setField]
  | cons kv rest ih =>
    obtain ⟨k2, u⟩ := kv
    by_cases h : k2 = k
    · simp [setField, h]
    · simp [setField, h, ih]

/-! ## Lemmas on the aggregation -/

theorem addPlantIdStage_ok (l l2 : List Doc) (h : addPlantIdStage l = .ok l2) :
    l2 = l.map (fun o => setField o "plantId" (plantRef o)) ∧
      ∀ o ∈ l, toObjectId (getField o "plantId") = .ok (plantRef o) := by
  induction l generalizing l2 with
  | nil =>
    simp [addPlantIdStage] at h
    simp [h]
  | cons o rest ih =>
    unfold addPlantIdStage addPlantId at h
    cases hc : toObjectId (getField o "plantId") with
    | error e => simp [hc] at h
    | ok v =>
      cases hr : addPlantIdStage rest with
      | error e => simp [hc, hr] at h
      | ok rest2 =>
        simp [hc, hr] at h
        obtain ⟨h1, h2⟩ := ih rest2 hr
        have hv : plantRef o = v := by simp [plantRef, hc]
        refine ⟨?_, ?_⟩
        · rw [← h, h1]
          simp [hv]
        · intro x hx
          rcases List.mem_cons.mp hx with rfl | hx2
          · rw [hv]; exact hc
          · exact h2 x hx2

theorem addPlantIdStage_of_convertible (l : List Doc)
    (h : ∀ o ∈ l, ∃ v, toObjectId (getField o "plantId") = .ok v) :
    addPlantIdStage l = .ok (l.map (fun o => setField o "plantId" (plantRef o))) := by
  induction l with
  | nil => simp [addPlantIdStage]
  | cons o rest ih =>
    obtain ⟨v, hv⟩ := h o (by simp)
    have hr := ih (fun x hx => h x (by simp [hx]))
    have hp : plantRef o = v := by simp [plantRef, hv]
    unfold addPlantIdStage addPlantId
    simp [hv, hr, hp]

theorem addPlantIdStage_of_failure (l : List Doc) (o : Doc) (e : String) (ho : o ∈ l)
    (h : toObjectId (getField o "plantId") = .error e) :
    ∃ e2, addPlantIdStage l = .error e2 := by
  induction l with
  | nil => simp at ho
  | cons x rest ih =>
    unfold addPlantIdStage addPlantId
    cases hc : toObjectId (getField x "plantId") with
    | error e3 => exact ⟨e3, by simp⟩
    | ok v =>
      rcases List.mem_cons.mp ho with rfl | ho2
      · rw [h] at hc; cases hc
      · obtain ⟨e2, he2⟩ := ih ho2
        exact ⟨e2, by simp [he2]⟩

/-- What stages 3 to 6 make of one converted order: one row per matching plant. -/
theorem stages_of_converted (plants : List Doc) (o : Doc) :
    ((unwindPlants (lookupPlants plants (setField o "plantId" (plantRef o)))).map
        addPlantFields).map projectOutPlants =
      (plants.filter (fun p => eqMatch (getField p "_id") (plantRef o))).map (joinRow o) := by
  have hl : lookupMatches plants (setField o "plantId" (plantRef o)) =
      plants.filter (fun p => eqMatch (getField p "_id") (plantRef o)) := by
    simp [lookupMatches, getField_setField_same]
  simp [unwindPlants, lookupPlants, getField_setField_same, setField_setField_same, hl, joinRow,
    Function.comp_def]

/-- The rows of a successful aggregation, order by order. -/
theorem aggregate_rows (orders plants : List Doc) (email : String) (rows : List Doc)
    (h : customerOrdersAggregate orders plants email = .ok rows) :
    rows = (matchStage email orders).flatMap (fun o =>
        (plants.filter (fun p => eqMatch (getField p "_id") (plantRef o))).map (joinRow o)) ∧
      ∀ o ∈ matchStage email orders, toObjectId (getField o "plantId") = .ok (plantRef o) := by
  unfold customerOrdersAggregate at h
  cases hc : addPlantIdStage (matchStage email orders) with
  | error e => simp [hc] at h
  | ok converted =>
    simp only [hc] at h
    obtain ⟨h1, h2⟩ := addPlantIdStage_ok _ _ hc
    refine ⟨?_, h2⟩
    have h3 : rows = (((converted.map (lookupPlants plants)).flatMap unwindPlants).map
        addPlantFields).map projectOutPlants := by
      injection h with h; exact h.symm
    rw [h3, h1]
    generalize matchStage email orders = ms
    induction ms with
    | nil => simp
    | cons o rest ih =>
      simp only [List.map_cons, List.flatMap_cons, List.map_append]
      rw [stages_of_converted, ih]

theorem customerOrdersAggregate_of_convertible (orders plants : List Doc) (email : String)
    (h : ∀ o ∈ matchStage email orders, ∃ v, toObjectId (getField o "plantId") = .ok v) :
    customerOrdersAggregate orders plants email =
      .ok ((matchStage email orders).flatMap (fun o =>
        (plants.filter (fun p => eqMatch (getField p "_id") (plantRef o))).map (joinRow o))) := by
  have hc := addPlantIdStage_of_convertible _ h
  have hagg : ∃ rows, customerOrdersAggregate orders plants email = .ok rows := by
    unfold customerOrdersAggregate
    rw [hc]
    exact ⟨_, rfl⟩
  obtain ⟨rows, hrows⟩ := hagg
  rw [hrows, (aggregate_rows orders plants email rows hrows).1]

theorem eqMatch_of_hasId (d : Doc) (q : Value) (h : hasId d = true) :
    eqMatch (getField d "_id") q = decide (getField d "_id" = some q) := by
  unfold hasId at h
  cases hg : getField d "_id" with
  | none => simp [hg] at h
  | some v =>
    rw [hg] at h
    cases v <;> simp_all [eqMatch, isArr]

/-- In a well-formed collection the documents matching an `_id` are the first
one with that `_id` and no other. -/
theorem filter_id_of_wellFormed (c : List Doc) (v : Value) (hwf : WellFormed c) :
    c.filter (fun p => eqMatch (getField p "_id") v) =
      (c.find? (fun p => decide (getField p "_id" = some v))).toList := by
  induction c with
  | nil => simp
  | cons p rest ih =>
    obtain ⟨hid, hpw⟩ := hwf
    have hp : hasId p = true := hid p (by simp)
    have hrest : WellFormed rest :=
      ⟨fun d hd => hid d (by simp [hd]), (List.pairwise_cons.mp hpw).2⟩
    have hne : ∀ d ∈ rest, getField p "_id" ≠ getField d "_id" := (List.pairwise_cons.mp hpw).1
    by_cases hm : getField p "_id" = some v
    · have hnone : rest.filter (fun d => eqMatch (getField d "_id") v) = [] := by
        rw [List.filter_eq_nil_iff]
        intro d hd
        rw [eqMatch_of_hasId d v (hid d (by simp [hd]))]
        have := hne d hd
        rw [hm] at this
        simpa using fun h => this h.symm
      have he : eqMatch (getField p "_id") v = true := by
        rw [eqMatch_of_hasId p v hp]; simpa using hm
      have hd : decide (getField p "_id" = some v) = true := by simpa using hm
      simp only [List.filter, List.find?, he, hd]
      rw [hnone]
      rfl
    · have he : eqMatch (getField p "_id") v = false := by
        rw [eqMatch_of_hasId p v hp]; simpa using hm
      have hd : decide (getField p "_id" = some v) = false := by simpa using hm
      simp only [List.filter, List.find?, he, hd]
      exact ih hrest

theorem flatMap_toList_map {α β : Type} (l : List α) (f : α → Option β) :
    l.flatMap (fun a => (f a).toList) = l.filterMap f := by
  induction l with
  | nil => simp
  | cons a rest ih =>
    cases hf : f a <;> simp [List.filterMap_cons, hf, ih]

/-! ## Lemmas on the emitted row -/

theorem joinRow_plants (o p : Doc) : getField (joinRow o p) "plants" = none := by
  simp [joinRow, projectOutPlants, getField_eraseField_same]

theorem joinRow_name (o p : Doc) : getField (joinRow o p) "name" = getField p "name" := by
  unfold joinRow projectOutPlants addPlantFields
  rw [getField_eraseField_ne _ _ _ (by decide), getField_addField_ne _ _ _ _ (by decide),
    getField_addField_ne _ _ _ _ (by decide), getField_addField_same]
  simp [evalPath2, getField_setField_same]

theorem joinRow_image (o p : Doc) : getField (joinRow o p) "image" = getField p "image" := by
  unfold joinRow projectOutPlants addPlantFields
  rw [getField_eraseField_ne _ _ _ (by decide), getField_addField_ne _ _ _ _ (by decide),
    getField_addField_same]
  simp [evalPath2, getField_setField_same]

theorem joinRow_category (o p : Doc) :
    getField (joinRow o p) "category" = getField p "category" := by
  unfold joinRow projectOutPlants addPlantFields
  rw [getField_eraseField_ne _ _ _ (by decide), getField_addField_same]
  simp [evalPath2, getField_setField_same]

theorem joinRow_other (o p : Doc) (k : String) (h1 : k ≠ "plantId") (h2 : k ≠ "name")
    (h3 : k ≠ "image") (h4 : k ≠ "category") (h5 : k ≠ "plants") :
    getField (joinRow o p) k = getField o k := by
  unfold joinRow projectOutPlants addPlantFields
  rw [getField_eraseField_ne _ _ _ (Ne.symm h5), getField_addField_ne _ _ _ _ (Ne.symm h4),
    getField_addField_ne _ _ _ _ (Ne.symm h3), getField_addField_ne _ _ _ _ (Ne.symm h2),
    getField_setField_ne _ _ _ _ (Ne.symm h5), getField_setField_ne _ _ _ _ (Ne.symm h1)]

theorem joinRow_plantId (o p : Doc) : getField (joinRow o p) "plantId" = some (plantRef o) := by
  unfold joinRow projectOutPlants addPlantFields
  rw [getField_eraseField_ne _ _ _ (by decide), getField_addField_ne _ _ _ _ (by decide),
    getField_addField_ne _ _ _ _ (by decide), getField_addField_ne _ _ _ _ (by decide),
    getField_setField_ne _ _ _ _ (by decide), getField_setField_same]

/-- Every row of a successful aggregation is the join of an order of the
customer with a plant matching its coerced reference. -/
theorem aggregate_row_source (orders plants : List Doc) (email : String) (rows : List Doc)
    (h : customerOrdersAggregate orders plants email = .ok rows) (r : Doc) (hr : r ∈ rows) :
    ∃ o ∈ orders, ∃ p ∈ plants,
      pathMatch ["customer", "email"] o (.str email) = true ∧
      toObjectId (getField o "plantId") = .ok (plantRef o) ∧
      eqMatch (getField p "_id") (plantRef o) = true ∧ r = joinRow o p := by
  obtain ⟨h1, h2⟩ := aggregate_rows orders plants email rows h
  rw [h1] at hr
  simp only [List.mem_flatMap, List.mem_map, List.mem_filter] at hr
  obtain ⟨o, ho, p, ⟨hp, hm⟩, hrow⟩ := hr
  have ho2 : o ∈ orders ∧ pathMatch ["customer", "email"] o (.str email) = true := by
    unfold matchStage at ho
    exact List.mem_filter.mp ho
  exact ⟨o, ho2.1, p, hp, ho2.2, h2 o ho, hm, hrow.symm⟩

theorem joinRow_id (o p : Doc) : getField (joinRow o p) "_id" = getField o "_id" :=
  joinRow_other o p "_id" (by decide) (by decide) (by decide) (by decide) (by decide)

/-- In a well-formed collection, the document found by `_id` has exactly that
`_id`, and no document around it has. -/
theorem findOne_id_wellFormed (c : List Doc) (q : Value) (x : Doc) (hwf : WellFormed c)
    (h : findOne c "_id" q = some x) :
    ∃ pre post, c = pre ++ x :: post ∧ getField x "_id" = some q ∧
      eqMatch (getField x "_id") q = true ∧
      (∀ y ∈ pre, eqMatch (getField y "_id") q = false) ∧
      ∀ y ∈ pre ++ post, getField y "_id" ≠ getField x "_id" := by
  obtain ⟨pre, post, hc, hm, hpre⟩ := findOne_split c "_id" q x h
  have hx : x ∈ c := by rw [hc]; simp
  have hxid : getField x "_id" = some q := by
    have := hm
    rw [eqMatch_of_hasId x q (hwf.1 x hx)] at this
    simpa using this
  refine ⟨pre, post, hc, hxid, hm, hpre, ?_⟩
  have hpw := hwf.2
  rw [hc, List.pairwise_append] at hpw
  obtain ⟨_, hpost, hcross⟩ := hpw
  intro y hy
  rcases List.mem_append.mp hy with hy1 | hy2
  · exact hcross y hy1 x (by simp)
  · exact fun e => (List.pairwise_cons.mp hpost).1 y hy2 e.symm

/-! ## Lemmas on insertion -/

theorem getField_withId_ne (d : Doc) (g k : String) (h : k ≠ "_id") :
    getField (withId d g) k = getField d k := by
  unfold withId
  rw [getField, if_neg (Ne.symm h)]
  exact getField_eraseField_ne d "_id" k (Ne.symm h)

theorem getField_withId_id (d : Doc) (g : String) :
    getField (withId d g) "_id" = some (assignedId d g) := by
  simp [withId, getField]

theorem assignedId_setField_ne (d : Doc) (k g : String) (v : Value) (h : k ≠ "_id") :
    assignedId (setField d k v) g = assignedId d g := by
  unfold assignedId
  rw [getField_setField_ne d k "_id" v h]

theorem insertOne_ok (c : List Doc) (d : Doc) (g : String)
    (harr : isArr (assignedId d g) = false)
    (hfresh : ∀ e ∈ c, getField e "_id" ≠ some (assignedId d g)) :
    insertOne c d g = .ok (insertAck (assignedId d g), c ++ [withId d g]) := by
  have hany : c.any (fun e => decide (getField e "_id" = some (assignedId d g))) = false := by
    rw [List.any_eq_false]
    intro e he
    simpa using hfresh e he
  simp [insertOne, harr, hany]

theorem findOne_append_last (c : List Doc) (key : String) (q : Value) (x : Doc)
    (hnone : findOne c key q = none) (hx : eqMatch (getField x key) q = true) :
    findOne (c ++ [x]) key q = some x := by
  unfold findOne at *
  rw [List.find?_append, hnone]
  simp [List.find?, hx]

/-- What the registration handler does when the email is not yet stored. -/
theorem saveUser_of_absent (env : Env) (email : String) (req : Request) (db : DB)
    (habsent : findOne db.users "email" (.str email) = none)
    (harr : isArr (assignedId req.body env.generatedId) = false)
    (hfresh : ∀ e ∈ db.users, getField e "_id" ≠ some (assignedId req.body env.generatedId)) :
    ∃ stored,
      saveUser env email req db =
        ⟨.send 200 (.doc [("acknowledged", .bool true),
            ("insertedId", assignedId req.body env.generatedId)]) .keep,
          { db with users := db.users ++ [stored] }⟩ ∧
      getField stored "role" = some (.str "customer") ∧
      getField stored "timestamp" = some (.num env.now) ∧
      getField stored "_id" = some (assignedId req.body env.generatedId) ∧
      ∀ k, k ≠ "role" → k ≠ "timestamp" → k ≠ "_id" → getField stored k = getField req.body k := by
  have hid : assignedId (setField (setField req.body "role" (.str "customer")) "timestamp"
      (.num env.now)) env.generatedId = assignedId req.body env.generatedId := by
    rw [assignedId_setField_ne _ _ _ _ (by decide), assignedId_setField_ne _ _ _ _ (by decide)]
  refine ⟨withId (setField (setField req.body "role" (.str "customer")) "timestamp"
      (.num env.now)) env.generatedId, ?_, ?_, ?_, ?_, ?_⟩
  · have hins := insertOne_ok db.users
      (setField (setField req.body "role" (.str "customer")) "timestamp" (.num env.now))
      env.generatedId (by rw [hid]; exact harr) (by rw [hid]; exact hfresh)
    simp [saveUser, habsent, hins, hid, ok200, insertAck]
  · rw [getField_withId_ne _ _ _ (by decide), getField_setField_ne _ _ _ _ (by decide),
      getField_setField_same]
  · rw [getField_withId_ne _ _ _ (by decide), getField_setField_same]
  · rw [getField_withId_id, hid]
  · intro k h1 h2 h3
    rw [getField_withId_ne _ _ _ h3, getField_setField_ne _ _ _ _ (Ne.symm h2),
      getField_setField_ne _ _ _ _ (Ne.symm h1)]

/-! ## Lemmas on the quantity update -/

theorem setField_eq_self (d : Doc) (k : String) (v : Value) (h : getField d k = some v) :
    setField d k v = d := by
  induction d with
  | nil => simp [getField] at h
  | cons kv rest ih =>
    obtain ⟨k2, w⟩ := kv
    by_cases hk : k2 = k
    · have hw : w = v := by simpa [getField, hk] using h
      simp [setField, hk, hw]
    · have hr : getField rest k = some v := by simpa [getField, hk] using h
      simp [setField, hk, ih hr]

theorem roundDouble_of_safe (x : Int) (h : isSafeInteger x = true) : roundDouble x = some x := by
  have hx : x.natAbs < 2 ^ 53 := by
    unfold isSafeInteger at h
    exact of_decide_eq_true h
  unfold roundDouble
  rw [if_pos hx]

theorem isDouble_of_safe (x : Int) (h : isSafeInteger x = true) : isDouble x = true := by
  simp [isDouble, roundDouble_of_safe x h]

theorem isSafeInteger_neg (x : Int) : isSafeInteger (-x) = isSafeInteger x := by
  simp [isSafeInteger]

/-- Within the safe integers the sum `$inc` stores is the exact sum. -/
theorem incSum_of_safe (q delta : Int) (hq : isSafeInteger q = true)
    (hd : isSafeInteger delta = true) (hr : isSafeInteger (q + delta) = true) :
    incSum q delta = some (q + delta) := by
  unfold incSum
  by_cases h32 : isInt32 delta = true
  · simp [h32, hr]
  · simp [h32, isDouble_of_safe delta hd, roundDouble_of_safe q hq,
      roundDouble_of_safe (q + delta) hr]

theorem updateOneInc_found (c : List Doc) (q : Value) (plant : Doc) (quantity delta r : Int)
    (hfind : findOne c "_id" q = some plant)
    (hq : getField plant "quantity" = some (.num quantity))
    (hsum : incSum quantity delta = some r) :
    ∃ pre post modified, c = pre ++ plant :: post ∧
      eqMatch (getField plant "_id") q = true ∧
      (∀ y ∈ pre, eqMatch (getField y "_id") q = false) ∧
      updateOneInc c "_id" q "quantity" delta =
        some (.ok (updateAck 1 modified,
          pre ++ setField plant "quantity" (.num r) :: post)) := by
  obtain ⟨pre, post, hc, hm, hpre⟩ := findOne_split c "_id" q plant hfind
  refine ⟨pre, post, (if setField plant "quantity" (.num r) = plant then 0 else 1),
    hc, hm, hpre, ?_⟩
  have hupd : updateFirst (fun x => eqMatch (getField x "_id") q)
      (fun _ => setField plant "quantity" (.num r)) c =
      pre ++ setField plant "quantity" (.num r) :: post := by
    rw [hc]
    exact updateFirst_split _ _ pre post plant hm hpre
  simp only [updateOneInc, hfind, incField, hq, hsum, hupd]

/-! ## Lemmas on routing -/

theorem findRoute_mem (rs : List Route) (m : Method) (path : List String) (r : Route)
    (params : List (String × String)) (h : findRoute rs m path = some (r, params)) :
    r ∈ rs := by
  induction rs with
  | nil => simp [findRoute] at h
  | cons x xs ih =>
    unfold findRoute at h
    by_cases hm : x.method = m
    · cases hp : matchPath x.pattern path with
      | some ps =>
        simp [hm, hp] at h
        simp [h.1]
      | none =>
        simp [hm, hp] at h
        exact List.mem_cons_of_mem _ (ih h)
    · simp [hm] at h
      exact List.mem_cons_of_mem _ (ih h)

theorem gated_routes_auth : ∀ r ∈ routes, r.handler ∈ gatedHandlers → r.auth = true := by
  decide

/-! ## The claims -/

/-- C1: for every orders collection and every id whose matching order has status
`delivered`, the handler of `DELETE /order/:id` responds with status 409 and the
conflict message, the database (the orders collection in particular) is exactly
as before, and the order is still found by its id afterwards. -/
theorem deleteOrder_delivered_conflict (db : DB) (id : String) (q : Value) (order : Doc)
    (hid : newObjectId id = .ok q) (hfind : findOne db.orders "_id" q = some order)
    (hst : getField order "status" = some (.str "delivered")) :
    deleteOrder id db =
        ⟨.send 409 (.doc [("message", .str "This order is already delivered")]) .keep, db⟩ ∧
      (deleteOrder id db).db.orders = db.orders ∧
      findOne (deleteOrder id db).db.orders "_id" q = some order := by
  have h : deleteOrder id db = ⟨conflict, db⟩ := by simp [deleteOrder, hid, hfind, hst]
  rw [h]
  exact ⟨rfl, rfl, hfind⟩

theorem deleteOrder_delivered_conflict_witness :
    newObjectId "64b000000000000000000001" = .ok (.oid "64b000000000000000000001") ∧
      findOne sampleDb.orders "_id" (.oid "64b000000000000000000001") = some orderDelivered ∧
      getField orderDelivered "status" = some (.str "delivered") ∧
      (deleteOrder "64b000000000000000000001" sampleDb =
          ⟨.send 409 (.doc [("message", .str "This order is already delivered")]) .keep,
            sampleDb⟩ ∧
        (deleteOrder "64b000000000000000000001" sampleDb).db.orders = sampleDb.orders ∧
        findOne (deleteOrder "64b000000000000000000001" sampleDb).db.orders "_id"
          (.oid "64b000000000000000000001") = some orderDelivered) :=
  ⟨by decide, by decide, by decide,
    deleteOrder_delivered_conflict sampleDb "64b000000000000000000001"
      (.oid "64b000000000000000000001") orderDelivered (by decide) (by decide) (by decide)⟩

/-- C9: for every orders collection and every id that matches no order (the id is
not the text of an ObjectId, or no order has it), the handler of
`DELETE /order/:id` throws: it sends neither a deletion acknowledgment nor a 409,
and the database is unchanged. -/
theorem deleteOrder_missing_throws (db : DB) (id : String)
    (h : ∀ q, newObjectId id = .ok q → findOne db.orders "_id" q = none) :
    ∃ msg, deleteOrder id db = ⟨.threw msg, db⟩ := by
  unfold deleteOrder
  cases hid : newObjectId id with
  | error e => exact ⟨e, rfl⟩
  | ok q =>
    simp only [h q hid]
    exact ⟨_, rfl⟩

theorem deleteOrder_missing_throws_witness :
    (∀ q, newObjectId "64b000000000000000000009" = .ok q →
        findOne sampleDb.orders "_id" q = none) ∧
      ∃ msg, deleteOrder "64b000000000000000000009" sampleDb = ⟨.threw msg, sampleDb⟩ :=
  have hq : ∀ q, newObjectId "64b000000000000000000009" = .ok q →
      findOne sampleDb.orders "_id" q = none := by
    intro q hq
    have h1 : newObjectId "64b000000000000000000009" =
        .ok (.oid "64b000000000000000000009") := by decide
    rw [h1] at hq
    injection hq with hq
    subst hq
    decide
  ⟨hq, deleteOrder_missing_throws sampleDb "64b000000000000000000009" hq⟩

/-- C2: for every well-formed orders collection and every id whose matching order
has a status other than `delivered` (a missing status included), the handler of
`DELETE /order/:id` removes that order and only that order, sends the deletion
acknowledgment (one document deleted) and leaves users and plants alone; no
remaining order has the id, a listing for any email that succeeded before still
succeeds, and no row of a later listing, for any email, is a row of that order. -/
theorem deleteOrder_removes_order (db : DB) (id : String) (q : Value) (order : Doc)
    (hwf : WellFormed db.orders)
    (hid : newObjectId id = .ok q) (hfind : findOne db.orders "_id" q = some order)
    (hst : getField order "status" ≠ some (.str "delivered")) :
    ∃ pre post, db.orders = pre ++ order :: post ∧
      deleteOrder id db = ⟨.send 200 (deleteAck 1) .keep, { db with orders := pre ++ post }⟩ ∧
      findOne (deleteOrder id db).db.orders "_id" q = none ∧
      (∀ email, (∃ rows, customerOrdersAggregate db.orders db.plants email = .ok rows) →
        ∃ rows, customerOrdersAggregate (deleteOrder id db).db.orders
          (deleteOrder id db).db.plants email = .ok rows) ∧
      ∀ email rows,
        customerOrdersAggregate (deleteOrder id db).db.orders (deleteOrder id db).db.plants
            email = .ok rows →
          ∀ r ∈ rows, getField r "_id" ≠ getField order "_id" := by
  obtain ⟨pre, post, hc, hxid, hm, hpre, hne⟩ := findOne_id_wellFormed db.orders q order hwf hfind
  have hdel : deleteOrder id db =
      ⟨.send 200 (deleteAck 1) .keep, { db with orders := pre ++ post }⟩ := by
    have hd : deleteFirst (fun x => eqMatch (getField x "_id") q) db.orders = pre ++ post := by
      rw [hc]; exact deleteFirst_split _ pre post order hm hpre
    simp [deleteOrder, hid, hfind, hst, deleteOne, hd, ok200]
  refine ⟨pre, post, hc, hdel, ?_, ?_, ?_⟩
  · rw [hdel]
    show findOne (pre ++ post) "_id" q = none
    unfold findOne
    rw [List.find?_eq_none]
    intro y hy
    have hyc : y ∈ db.orders := by
      rw [hc]
      rcases List.mem_append.mp hy with h1 | h2
      · simp [h1]
      · simp [h2]
    rw [eqMatch_of_hasId y q (hwf.1 y hyc)]
    have := hne y hy
    rw [hxid] at this
    simpa using this
  · intro email hex
    obtain ⟨rows, hrows⟩ := hex
    have hconv := (aggregate_rows db.orders db.plants email rows hrows).2
    rw [hdel]
    refine ⟨_, customerOrdersAggregate_of_convertible (pre ++ post) db.plants email ?_⟩
    intro o ho
    have ho2 : o ∈ pre ++ post ∧ pathMatch ["customer", "email"] o (.str email) = true := by
      unfold matchStage at ho
      exact List.mem_filter.mp ho
    have ho3 : o ∈ matchStage email db.orders := by
      rw [hc]
      simp only [matchStage, List.mem_filter]
      refine ⟨?_, ho2.2⟩
      rcases List.mem_append.mp ho2.1 with h1 | h2
      · simp [h1]
      · simp [h2]
    exact ⟨_, hconv o ho3⟩
  · intro email rows hrows r hr
    rw [hdel] at hrows
    obtain ⟨o, ho, p, _, _, _, _, hrow⟩ :=
      aggregate_row_source (pre ++ post) db.plants email rows hrows r hr
    rw [hrow, joinRow_id]
    exact hne o ho

theorem deleteOrder_removes_order_witness :
    WellFormed sampleDb.orders ∧
      newObjectId "64b000000000000000000002" = .ok (.oid "64b000000000000000000002") ∧
      findOne sampleDb.orders "_id" (.oid "64b000000000000000000002") = some orderPending ∧
      getField orderPending "status" ≠ some (.str "delivered") ∧
      ∃ pre post, sampleDb.orders = pre ++ orderPending :: post ∧
        deleteOrder "64b000000000000000000002" sampleDb =
          ⟨.send 200 (deleteAck 1) .keep, { sampleDb with orders := pre ++ post }⟩ ∧
        findOne (deleteOrder "64b000000000000000000002" sampleDb).db.orders "_id"
          (.oid "64b000000000000000000002") = none ∧
        (∀ email,
          (∃ rows, customerOrdersAggregate sampleDb.orders sampleDb.plants email = .ok rows) →
          ∃ rows, customerOrdersAggregate
            (deleteOrder "64b000000000000000000002" sampleDb).db.orders
            (deleteOrder "64b000000000000000000002" sampleDb).db.plants email = .ok rows) ∧
        ∀ email rows,
          customerOrdersAggregate (deleteOrder "64b000000000000000000002" sampleDb).db.orders
              (deleteOrder "64b000000000000000000002" sampleDb).db.plants email = .ok rows →
            ∀ r ∈ rows, getField r "_id" ≠ getField orderPending "_id" :=
  ⟨by decide, by decide, by decide, by decide,
    deleteOrder_removes_order sampleDb "64b000000000000000000002"
      (.oid "64b000000000000000000002") orderPending (by decide) (by decide) (by decide)
      (by decide)⟩

/-- C3, amended: over a well-formed plants collection, if `$toObjectId` converts
the `plantId` of every order of the customer (the text of an ObjectId, an
ObjectId, `null` or missing), the aggregation of `GET /customer-orders/:email`
returns, in collection order, exactly one row per order whose `customer.email`
matches and whose coerced `plantId` is the `_id` of a plant, and no other row:
an order of the customer with a convertible but dangling reference is absent
without an error.  If the `plantId` of some order of the customer is not
convertible, the aggregation fails. -/
theorem customerOrders_join (orders plants : List Doc) (email : String)
    (hwf : WellFormed plants) :
    ((∀ o ∈ orders, pathMatch ["customer", "email"] o (.str email) = true →
          convertible o = true) →
        customerOrdersAggregate orders plants email =
          .ok ((orders.filter (fun o => pathMatch ["customer", "email"] o (.str email))).filterMap
            (fun o => (resolvePlant plants o).map (joinRow o)))) ∧
      ((∃ o ∈ orders, pathMatch ["customer", "email"] o (.str email) = true ∧
          convertible o = false) →
        ∃ e, customerOrdersAggregate orders plants email = .error e) := by
  constructor
  · intro hconv
    have h : ∀ o ∈ matchStage email orders, ∃ v, toObjectId (getField o "plantId") = .ok v := by
      intro o ho
      unfold matchStage at ho
      have hc := hconv o (List.mem_filter.mp ho).1 (List.mem_filter.mp ho).2
      unfold convertible at hc
      cases ht : toObjectId (getField o "plantId") with
      | ok v => exact ⟨v, rfl⟩
      | error e => simp [ht] at hc
    rw [customerOrdersAggregate_of_convertible orders plants email h]
    have hrow : ∀ o, (plants.filter (fun p => eqMatch (getField p "_id") (plantRef o))).map
        (joinRow o) = ((resolvePlant plants o).map (joinRow o)).toList := by
      intro o
      rw [filter_id_of_wellFormed plants (plantRef o) hwf]
      unfold resolvePlant
      cases plants.find? (fun p => decide (getField p "_id" = some (plantRef o))) <;> rfl
    simp only [hrow]
    rw [flatMap_toList_map]
    rfl
  · rintro ⟨o, ho, hm, hc⟩
    unfold convertible at hc
    cases ht : toObjectId (getField o "plantId") with
    | ok v => simp [ht] at hc
    | error e =>
      have hmem : o ∈ matchStage email orders := by
        unfold matchStage
        exact List.mem_filter.mpr ⟨ho, hm⟩
      obtain ⟨e2, he2⟩ := addPlantIdStage_of_failure _ o e hmem ht
      exact ⟨e2, by simp [customerOrdersAggregate, he2]⟩

theorem customerOrders_join_witness :
    WellFormed [plantFern] ∧
      (∀ o ∈ [orderDelivered, orderPending],
        pathMatch ["customer", "email"] o (.str "a@x.com") = true → convertible o = true) ∧
      customerOrdersAggregate [orderDelivered, orderPending] [plantFern] "a@x.com" =
        .ok (([orderDelivered, orderPending].filter
            (fun o => pathMatch ["customer", "email"] o (.str "a@x.com"))).filterMap
          (fun o => (resolvePlant [plantFern] o).map (joinRow o))) ∧
      (([orderDelivered, orderPending].filter
            (fun o => pathMatch ["customer", "email"] o (.str "a@x.com"))).filterMap
          (fun o => (resolvePlant [plantFern] o).map (joinRow o))) =
        [[("_id", .oid "64b000000000000000000001"),
          ("customer", .doc [("email", .str "a@x.com")]),
          ("plantId", .oid "64a000000000000000000001"), ("quantity", .num 3),
          ("status", .str "delivered"), ("name", .str "Fern"), ("image", .str "fern.png"),
          ("category", .str "Indoor")]] :=
  ⟨by decide, by decide,
    (customerOrders_join [orderDelivered, orderPending] [plantFern] "a@x.com" (by decide)).1
      (by decide),
    by decide⟩

/-- C3 as stated fails: the order `orderBadRef` is an order of the customer whose
`plantId` (the text `P2`) resolves to no plant, and it turns the listing into an
error instead of being dropped. -/
theorem customerOrders_badRef_fails :
    pathMatch ["customer", "email"] orderBadRef (.str "a@x.com") = true ∧
      resolvePlant [plantFern] orderBadRef = none ∧
      customerOrdersAggregate [orderDelivered, orderBadRef] [plantFern] "a@x.com" =
        .error "Failed to parse objectId in $convert" := by
  decide

/-- C4, amended: every row of a successful listing comes from an order of the
customer and a plant whose `_id` matches the coerced `plantId` of the order; the
row carries every field of the order other than `plantId`, `name`, `image`,
`category` and `plants` with its original value, `plantId` as the coerced
reference, `name`, `image` and `category` as they are in the plant (absent where
the plant has none), and no `plants` field. -/
theorem customerOrders_row_fields (orders plants : List Doc) (email : String) (rows : List Doc)
    (h : customerOrdersAggregate orders plants email = .ok rows) (r : Doc) (hr : r ∈ rows) :
    ∃ o ∈ orders, ∃ p ∈ plants,
      pathMatch ["customer", "email"] o (.str email) = true ∧
      toObjectId (getField o "plantId") = .ok (plantRef o) ∧
      eqMatch (getField p "_id") (plantRef o) = true ∧
      (∀ k, k ≠ "plantId" → k ≠ "name" → k ≠ "image" → k ≠ "category" → k ≠ "plants" →
        getField r k = getField o k) ∧
      getField r "plantId" = some (plantRef o) ∧
      getField r "name" = getField p "name" ∧
      getField r "image" = getField p "image" ∧
      getField r "category" = getField p "category" ∧
      getField r "plants" = none := by
  obtain ⟨o, ho, p, hp, hm, hc, he, hrow⟩ := aggregate_row_source orders plants email rows h r hr
  subst hrow
  exact ⟨o, ho, p, hp, hm, hc, he, fun k h1 h2 h3 h4 h5 => joinRow_other o p k h1 h2 h3 h4 h5,
    joinRow_plantId o p, joinRow_name o p, joinRow_image o p, joinRow_category o p,
    joinRow_plants o p⟩

theorem customerOrders_row_fields_witness :
    customerOrdersAggregate sampleDb.orders sampleDb.plants "a@x.com" =
        .ok [joinRow orderDelivered plantFern] ∧
      joinRow orderDelivered plantFern ∈ [joinRow orderDelivered plantFern] ∧
      ∃ o ∈ sampleDb.orders, ∃ p ∈ sampleDb.plants,
        pathMatch ["customer", "email"] o (.str "a@x.com") = true ∧
        toObjectId (getField o "plantId") = .ok (plantRef o) ∧
        eqMatch (getField p "_id") (plantRef o) = true ∧
        (∀ k, k ≠ "plantId" → k ≠ "name" → k ≠ "image" → k ≠ "category" → k ≠ "plants" →
          getField (joinRow orderDelivered plantFern) k = getField o k) ∧
        getField (joinRow orderDelivered plantFern) "plantId" = some (plantRef o) ∧
        getField (joinRow orderDelivered plantFern) "name" = getField p "name" ∧
        getField (joinRow orderDelivered plantFern) "image" = getField p "image" ∧
        getField (joinRow orderDelivered plantFern) "category" = getField p "category" ∧
        getField (joinRow orderDelivered plantFern) "plants" = none :=
  ⟨by decide, by decide,
    customerOrders_row_fields sampleDb.orders sampleDb.plants "a@x.com"
      [joinRow orderDelivered plantFern] (by decide) (joinRow orderDelivered plantFern)
      (by decide)⟩

/-- C4 as stated fails: the order `orderNamed` has a `name` of its own and a
textual `plantId`; its row has the name of the plant and an ObjectId as
`plantId`. -/
theorem customerOrders_row_overwrites :
    customerOrdersAggregate [orderNamed] [plantFern] "a@x.com" =
        .ok [[("_id", .oid "64b000000000000000000004"),
          ("customer", .doc [("email", .str "a@x.com")]),
          ("plantId", .oid "64a000000000000000000001"), ("name", .str "Fern"),
          ("status", .str "pending"), ("image", .str "fern.png"),
          ("category", .str "Indoor")]] ∧
      getField orderNamed "name" = some (.str "Gift for Sam") ∧
      getField orderNamed "plantId" = some (.str "64a000000000000000000001") := by
  decide

/-- C6, amended: for every users collection holding no record with the given
email and every profile whose `_id` (the generated identifier when the profile
has none) is not an array and not in use, the handler of `POST /users/:email`
appends exactly one record, the profile with `role` set to `customer` (whatever
role the profile carries), `timestamp` set to the clock value and `_id` in first
place, every other field being that of the profile; it responds with the
insertion acknowledgment, not with the record. -/
theorem saveUser_inserts (env : Env) (email : String) (req : Request) (db : DB)
    (habsent : findOne db.users "email" (.str email) = none)
    (harr : isArr (assignedId req.body env.generatedId) = false)
    (hfresh : ∀ e ∈ db.users, getField e "_id" ≠ some (assignedId req.body env.generatedId)) :
    ∃ stored,
      saveUser env email req db =
        ⟨.send 200 (.doc [("acknowledged", .bool true),
            ("insertedId", assignedId req.body env.generatedId)]) .keep,
          { db with users := db.users ++ [stored] }⟩ ∧
      getField stored "role" = some (.str "customer") ∧
      getField stored "timestamp" = some (.num env.now) ∧
      getField stored "_id" = some (assignedId req.body env.generatedId) ∧
      ∀ k, k ≠ "role" → k ≠ "timestamp" → k ≠ "_id" → getField stored k = getField req.body k :=
  saveUser_of_absent env email req db habsent harr hfresh

theorem saveUser_inserts_witness :
    findOne emptyDb.users "email" (.str "a@x.com") = none ∧
      isArr (assignedId (registerReq profileAda).body sampleEnv.generatedId) = false ∧
      (∀ e ∈ emptyDb.users,
        getField e "_id" ≠ some (assignedId (registerReq profileAda).body
          sampleEnv.generatedId)) ∧
      ∃ stored,
        saveUser sampleEnv "a@x.com" (registerReq profileAda) emptyDb =
          ⟨.send 200 (.doc [("acknowledged", .bool true),
              ("insertedId", assignedId (registerReq profileAda).body
                sampleEnv.generatedId)]) .keep,
            { emptyDb with users := emptyDb.users ++ [stored] }⟩ ∧
        getField stored "role" = some (.str "customer") ∧
        getField stored "timestamp" = some (.num sampleEnv.now) ∧
        getField stored "_id" =
          some (assignedId (registerReq profileAda).body sampleEnv.generatedId) ∧
        ∀ k, k ≠ "role" → k ≠ "timestamp" → k ≠ "_id" →
          getField stored k = getField (registerReq profileAda).body k :=
  ⟨by decide, by decide, by decide,
    saveUser_inserts sampleEnv "a@x.com" (registerReq profileAda) emptyDb (by decide)
      (by decide) (by decide)⟩

/-- C6 as stated fails: on the empty collection the handler stores the record
of `profileAda` and responds with the insertion acknowledgment, which is not
the stored record. -/
theorem saveUser_returns_acknowledgment :
    (saveUser sampleEnv "a@x.com" (registerReq profileAda) emptyDb).db.users =
        [[("_id", .oid "64c000000000000000000001"), ("email", .str "a@x.com"),
          ("name", .str "Ada"), ("role", .str "customer"),
          ("timestamp", .num 1700000000000)]] ∧
      (saveUser sampleEnv "a@x.com" (registerReq profileAda) emptyDb).outcome =
        .send 200 (.doc [("acknowledged", .bool true),
          ("insertedId", .oid "64c000000000000000000001")]) .keep ∧
      ¬ ∃ u ∈ (saveUser sampleEnv "a@x.com" (registerReq profileAda) emptyDb).db.users,
        (saveUser sampleEnv "a@x.com" (registerReq profileAda) emptyDb).outcome =
          .send 200 (.doc u) .keep := by
  decide

/-- C5, amended: for every users collection, email and pair of profiles, if the
collection already holds a record with that email, both calls of
`POST /users/:email` return that record and neither changes the database.  If
it holds none, the first profile has the email as its own `email` field and its
`_id` (the generated identifier when it has none) is not an array and not in
use, then the first call appends one record and returns the insertion
acknowledgment, and the second call returns that stored record and leaves the
database exactly as the first call left it. -/
theorem saveUser_twice (env1 env2 : Env) (email : String) (req1 req2 : Request) (db : DB) :
    (∀ u, findOne db.users "email" (.str email) = some u →
        saveUser env1 email req1 db = ⟨.send 200 (.doc u) .keep, db⟩ ∧
        saveUser env2 email req2 (saveUser env1 email req1 db).db =
          ⟨.send 200 (.doc u) .keep, db⟩) ∧
      (findOne db.users "email" (.str email) = none →
        getField req1.body "email" = some (.str email) →
        isArr (assignedId req1.body env1.generatedId) = false →
        (∀ e ∈ db.users, getField e "_id" ≠ some (assignedId req1.body env1.generatedId)) →
        ∃ stored,
          saveUser env1 email req1 db =
            ⟨.send 200 (.doc [("acknowledged", .bool true),
                ("insertedId", assignedId req1.body env1.generatedId)]) .keep,
              { db with users := db.users ++ [stored] }⟩ ∧
          saveUser env2 email req2 (saveUser env1 email req1 db).db =
            ⟨.send 200 (.doc stored) .keep, (saveUser env1 email req1 db).db⟩) := by
  constructor
  · intro u hu
    have h1 : saveUser env1 email req1 db = ⟨.send 200 (.doc u) .keep, db⟩ := by
      simp [saveUser, hu, ok200]
    rw [h1]
    exact ⟨rfl, by simp [saveUser, hu, ok200]⟩
  · intro habsent hemail harr hfresh
    obtain ⟨stored, h1, _, _, _, hother⟩ := saveUser_of_absent env1 email req1 db habsent harr hfresh
    refine ⟨stored, h1, ?_⟩
    rw [h1]
    have hm : eqMatch (getField stored "email") (.str email) = true := by
      rw [hother "email" (by decide) (by decide) (by decide), hemail]
      simp [eqMatch]
    have hf := findOne_append_last db.users "email" (.str email) stored habsent hm
    simp [saveUser, hf, ok200]

theorem saveUser_twice_witness :
    (findOne [userAda] "email" (.str "a@x.com") = some userAda ∧
        saveUser sampleEnv "a@x.com" (registerReq profileAda) ⟨[userAda], [], []⟩ =
          ⟨.send 200 (.doc userAda) .keep, ⟨[userAda], [], []⟩⟩ ∧
        saveUser laterEnv "a@x.com" (registerReq profileNoEmail)
            (saveUser sampleEnv "a@x.com" (registerReq profileAda) ⟨[userAda], [], []⟩).db =
          ⟨.send 200 (.doc userAda) .keep, ⟨[userAda], [], []⟩⟩) ∧
      (findOne emptyDb.users "email" (.str "a@x.com") = none ∧
        getField (registerReq profileAda).body "email" = some (.str "a@x.com") ∧
        ∃ stored,
          saveUser sampleEnv "a@x.com" (registerReq profileAda) emptyDb =
            ⟨.send 200 (.doc [("acknowledged", .bool true),
                ("insertedId", assignedId (registerReq profileAda).body
                  sampleEnv.generatedId)]) .keep,
              { emptyDb with users := emptyDb.users ++ [stored] }⟩ ∧
          saveUser laterEnv "a@x.com" (registerReq profileNoEmail)
              (saveUser sampleEnv "a@x.com" (registerReq profileAda) emptyDb).db =
            ⟨.send 200 (.doc stored) .keep,
              (saveUser sampleEnv "a@x.com" (registerReq profileAda) emptyDb).db⟩) :=
  ⟨⟨by decide,
      (saveUser_twice sampleEnv laterEnv "a@x.com" (registerReq profileAda)
        (registerReq profileNoEmail) ⟨[userAda], [], []⟩).1 userAda (by decide)⟩,
    ⟨by decide, by decide,
      (saveUser_twice sampleEnv laterEnv "a@x.com" (registerReq profileAda)
        (registerReq profileNoEmail) emptyDb).2 (by decide) (by decide) (by decide)
        (by decide)⟩⟩

/-- C5 as stated fails.  On the empty collection with a profile carrying the
email, the first call answers with the insertion acknowledgment and the second
with the stored record; with a profile that has no `email` field, the second
call does not find the record of the first and inserts another. -/
theorem saveUser_twice_differs :
    (saveUser sampleEnv "a@x.com" (registerReq profileAda) emptyDb).outcome ≠
        (saveUser laterEnv "a@x.com" (registerReq profileAda)
          (saveUser sampleEnv "a@x.com" (registerReq profileAda) emptyDb).db).outcome ∧
      (saveUser laterEnv "a@x.com" (registerReq profileNoEmail)
          (saveUser sampleEnv "a@x.com" (registerReq profileNoEmail) emptyDb).db).db ≠
        (saveUser sampleEnv "a@x.com" (registerReq profileNoEmail) emptyDb).db := by
  decide

/-- C7, amended: for every plants collection, every id of an existing plant
whose `quantity` is a safe integer `quantity` (absolute value below two to the
53) and every safe integer `n` such that `quantity - n` is a safe integer, the
quantity adjustment with `quantityToUpdate = n` succeeds and changes only that
plant, and only its `quantity`; `GET /plant/:id` afterwards returns the plant
with `quantity - n`, every other field unchanged.  There is no lower bound at
zero: the new quantity is negative when `n` exceeds the stock. -/
theorem managePlantQuantity_then_getPlant (db : DB) (id : String) (q : Value) (plant : Doc)
    (quantity n : Int) (req : Request)
    (hid : newObjectId id = .ok q) (hfind : findOne db.plants "_id" q = some plant)
    (hq : getField plant "quantity" = some (.num quantity))
    (hn : getField req.body "quantityToUpdate" = some (.num n))
    (hsq : isSafeInteger quantity = true) (hsn : isSafeInteger n = true)
    (hsr : isSafeInteger (quantity - n) = true) :
    ∃ pre post modified, db.plants = pre ++ plant :: post ∧
      managePlantQuantity id req db =
        some ⟨.send 200 (updateAck 1 modified) .keep,
          { db with plants := pre ++ setField plant "quantity" (.num (quantity - n)) :: post }⟩ ∧
      getPlant id
          { db with plants := pre ++ setField plant "quantity" (.num (quantity - n)) :: post } =
        ⟨.send 200 (.doc (setField plant "quantity" (.num (quantity - n)))) .keep,
          { db with plants := pre ++ setField plant "quantity" (.num (quantity - n)) :: post }⟩ ∧
      getField (setField plant "quantity" (.num (quantity - n))) "quantity" =
        some (.num (quantity - n)) ∧
      (∀ k, k ≠ "quantity" →
        getField (setField plant "quantity" (.num (quantity - n))) k = getField plant k) ∧
      (quantity < n → quantity - n < 0) := by
  have hsub : quantity + -n = quantity - n := by omega
  have hsum : incSum quantity (-n) = some (quantity - n) := by
    rw [← hsub]
    exact incSum_of_safe quantity (-n) hsq (by rw [isSafeInteger_neg]; exact hsn)
      (by rw [hsub]; exact hsr)
  obtain ⟨pre, post, modified, hc, hm, hpre, hupd⟩ :=
    updateOneInc_found db.plants q plant quantity (-n) (quantity - n) hfind hq hsum
  refine ⟨pre, post, modified, hc, ?_, ?_, getField_setField_same _ _ _, ?_, fun h => by omega⟩
  · simp [managePlantQuantity, hid, hn, isDouble_of_safe n hsn, hupd, ok200]
  · have hm2 : eqMatch (getField (setField plant "quantity" (.num (quantity - n))) "_id") q =
        true := by
      rw [getField_setField_ne _ _ _ _ (by decide)]; exact hm
    have hf := findOne_append_of_pre pre post "_id" q _ hm2 hpre
    simp [getPlant, hid, hf, ok200]
  · intro k hk
    exact getField_setField_ne _ _ _ _ (Ne.symm hk)

theorem managePlantQuantity_then_getPlant_witness :
    newObjectId "64a000000000000000000001" = .ok (.oid "64a000000000000000000001") ∧
      findOne sampleDb.plants "_id" (.oid "64a000000000000000000001") = some plantFern ∧
      getField plantFern "quantity" = some (.num 10) ∧
      getField adjustReq.body "quantityToUpdate" = some (.num 13) ∧
      isSafeInteger 10 = true ∧ isSafeInteger 13 = true ∧ isSafeInteger (10 - 13) = true ∧
      ∃ pre post modified, sampleDb.plants = pre ++ plantFern :: post ∧
        managePlantQuantity "64a000000000000000000001" adjustReq sampleDb =
          some ⟨.send 200 (updateAck 1 modified) .keep,
            { sampleDb with
              plants := pre ++ setField plantFern "quantity" (.num (10 - 13)) :: post }⟩ ∧
        getPlant "64a000000000000000000001"
            { sampleDb with
              plants := pre ++ setField plantFern "quantity" (.num (10 - 13)) :: post } =
          ⟨.send 200 (.doc (setField plantFern "quantity" (.num (10 - 13)))) .keep,
            { sampleDb with
              plants := pre ++ setField plantFern "quantity" (.num (10 - 13)) :: post }⟩ ∧
        getField (setField plantFern "quantity" (.num (10 - 13))) "quantity" =
          some (.num (10 - 13)) ∧
        (∀ k, k ≠ "quantity" →
          getField (setField plantFern "quantity" (.num (10 - 13))) k = getField plantFern k) ∧
        ((10 : Int) < 13 → (10 : Int) - 13 < 0) :=
  ⟨by decide, by decide, by decide, by decide, by decide, by decide, by decide,
    managePlantQuantity_then_getPlant sampleDb "64a000000000000000000001"
      (.oid "64a000000000000000000001") plantFern 10 13 adjustReq (by decide) (by decide)
      (by decide) (by decide) (by decide) (by decide) (by decide)⟩

/-- C7 as stated fails: the bonsai has quantity 1 and `quantityToUpdate` is minus
two to the 53, so the increment is the double two to the 53; the sum
9007199254740993 is not a double and `$inc` stores 9007199254740992, which is
what `GET /plant/:id` then returns, not `quantity - n`. -/
theorem managePlantQuantity_rounds :
    getField plantLast "quantity" = some (.num 1) ∧
      getField restockReq.body "quantityToUpdate" = some (.num (-9007199254740992)) ∧
      managePlantQuantity "64a000000000000000000003" restockReq ⟨[], [plantLast], []⟩ =
        some ⟨.send 200 (updateAck 1 1) .keep,
          ⟨[], [[("_id", .oid "64a000000000000000000003"), ("name", .str "Bonsai"),
            ("quantity", .num 9007199254740992)]], []⟩⟩ ∧
      getPlant "64a000000000000000000003"
          ⟨[], [[("_id", .oid "64a000000000000000000003"), ("name", .str "Bonsai"),
            ("quantity", .num 9007199254740992)]], []⟩ =
        ⟨.send 200 (.doc [("_id", .oid "64a000000000000000000003"), ("name", .str "Bonsai"),
            ("quantity", .num 9007199254740992)]) .keep,
          ⟨[], [[("_id", .oid "64a000000000000000000003"), ("name", .str "Bonsai"),
            ("quantity", .num 9007199254740992)]], []⟩⟩ ∧
      (1 : Int) - (-9007199254740992) = 9007199254740993 ∧
      (9007199254740992 : Int) ≠ 1 - (-9007199254740992) := by
  decide

/-- C8: each of the five session-gated operations is registered behind
`verifyToken`.  For every request routed to one of them: if the `token` cookie
is missing, empty or rejected by `jwt.verify`, the response is 401 with the
message `unauthorized access` and the database is unchanged, whatever the
handler is (it is not run); if verification succeeds, the result is that of the
handler run once on the request with the decoded claim as `req.user`. -/
theorem verifyToken_gates (env : Env) (req : Request) (db : DB) (r : Route)
    (params : List (String × String))
    (hroute : findRoute routes req.method req.path = some (r, params))
    (hgated : r.handler ∈ gatedHandlers) :
    (∀ h ∈ gatedHandlers, ∃ r2 ∈ routes, r2.handler = h ∧ r2.auth = true) ∧
      ((req.token = none ∨ req.token = some "" ∨
          ∃ t, req.token = some t ∧ env.jwtVerify t = none) →
        dispatch env req db =
            some ⟨.send 401 (.doc [("message", .str "unauthorized access")]) .keep, db⟩ ∧
          ∀ next, verifyToken env req next db =
            some ⟨.send 401 (.doc [("message", .str "unauthorized access")]) .keep, db⟩) ∧
      (∀ t decoded, req.token = some t → t ≠ "" → env.jwtVerify t = some decoded →
        dispatch env req db =
            runHandler env r.handler params { req with user := some decoded } db ∧
          ∀ next, verifyToken env req next db = next { req with user := some decoded } db) := by
  have hauth : r.auth = true :=
    gated_routes_auth r (findRoute_mem routes req.method req.path r params hroute) hgated
  have hdisp : dispatch env req db = verifyToken env req (runHandler env r.handler params) db := by
    simp [dispatch, hroute, hauth]
  refine ⟨by decide, ?_, ?_⟩
  · intro hbad
    have hv : ∀ next, verifyToken env req next db = some ⟨unauthorized, db⟩ := by
      intro next
      rcases hbad with h | h | ⟨t, ht, hj⟩
      · simp [verifyToken, h]
      · simp [verifyToken, h]
      · by_cases he : t = ""
        · simp [verifyToken, ht, he]
        · simp [verifyToken, ht, he, hj]
    exact ⟨by rw [hdisp]; exact hv _, hv⟩
  · intro t decoded ht hne hj
    have hv : ∀ next, verifyToken env req next db = next { req with user := some decoded } db := by
      intro next
      simp [verifyToken, ht, hne, hj]
    exact ⟨by rw [hdisp]; exact hv _, hv⟩

theorem verifyToken_gates_witness :
    findRoute routes (deleteReq (some "good")).method (deleteReq (some "good")).path =
        some (⟨.DELETE, [.lit "order", .param "id"], true, .deleteOrder⟩,
          [("id", "64b000000000000000000002")]) ∧
      Handler.deleteOrder ∈ gatedHandlers ∧
      (deleteReq (some "good")).token = some "good" ∧ "good" ≠ "" ∧
      sampleEnv.jwtVerify "good" = some (.doc [("email", .str "a@x.com")]) ∧
      dispatch sampleEnv (deleteReq (some "good")) sampleDb =
        runHandler sampleEnv .deleteOrder [("id", "64b000000000000000000002")]
          { deleteReq (some "good") with user := some (.doc [("email", .str "a@x.com")]) }
          sampleDb ∧
      dispatch sampleEnv (deleteReq (some "good")) sampleDb =
        some ⟨.send 200 (deleteAck 1) .keep, { sampleDb with orders := [orderDelivered] }⟩ ∧
      dispatch sampleEnv (deleteReq (some "forged")) sampleDb =
        some ⟨.send 401 (.doc [("message", .str "unauthorized access")]) .keep, sampleDb⟩ :=
  ⟨by decide, by decide, by decide, by decide, by decide,
    ((verifyToken_gates sampleEnv (deleteReq (some "good")) sampleDb
      ⟨.DELETE, [.lit "order", .param "id"], true, .deleteOrder⟩
      [("id", "64b000000000000000000002")] (by decide) (by decide)).2.2 "good"
      (.doc [("email", .str "a@x.com")]) (by decide) (by decide) (by decide)).1,
    by decide,
    ((verifyToken_gates sampleEnv (deleteReq (some "forged")) sampleDb
      ⟨.DELETE, [.lit "order", .param "id"], true, .deleteOrder⟩
      [("id", "64b000000000000000000002")] (by decide) (by decide)).2.1
      (Or.inr (Or.inr ⟨"forged", by decide, by decide⟩))).1⟩

/-- C10, the code at the failing input: no registration matches a `PATCH` of
`/plant/quantity/:id`, whatever the id, the cookie and the body, so the request
is answered 404 and the database is unchanged; the quantity handler is
registered under the path `/palnt/quantity/:id`, where the same request, with a
valid session, reaches it. -/
theorem patch_plant_quantity_unrouted (env : Env) (db : DB) (id : String)
    (token : Option String) (body : Doc) :
    findRoute routes .PATCH ["plant", "quantity", id] = none ∧
      dispatch env ⟨.PATCH, ["plant", "quantity", id], token, body, none⟩ db =
        some ⟨.send 404 .null .keep, db⟩ ∧
      findRoute routes .PATCH ["palnt", "quantity", "64a000000000000000000001"] =
        some (⟨.PATCH, [.lit "palnt", .lit "quantity", .param "id"], true,
          .managePlantQuantity⟩, [("id", "64a000000000000000000001")]) ∧
      dispatch sampleEnv adjustReq sampleDb =
        some ⟨.send 200 (updateAck 1 1) .keep,
          { sampleDb with plants := [setField plantFern "quantity" (.num (-3))] }⟩ := by
  have h1 : findRoute routes .PATCH ["plant", "quantity", id] = none := by
    have hne : ¬ (lowerStr "plant" = lowerStr "palnt") := by decide
    simp [routes, findRoute, matchPath, hne]
  refine ⟨h1, ?_, by decide, by decide⟩
  simp [dispatch, h1, notFound]

end PlantNet
